import Mathlib

/-!
Verification of the EC2 status logger Lambda
(`src/lambda/ec2_status_logger.py`) against its specification.

The handler is embedded shallowly: the external effects (the trigger
event, the `LOG_BUCKET` environment variable, the EC2
`describe_instances` response, and the current UTC time) become explicit
parameters, and the remote calls the handler issues become an explicit
trace of `Event`s.  Python `KeyError` / client exceptions become an
`Except` error result.
-/

namespace Ec2StatusLogger

/-- A single digit rendered as a character, as `strftime`'s zero-padded
numeric directives do. Arguments are always reduced mod 10 at use sites. -/
def digitChar : Nat → Char
  | 0 => '0' | 1 => '1' | 2 => '2' | 3 => '3' | 4 => '4'
  | 5 => '5' | 6 => '6' | 7 => '7' | 8 => '8' | 9 => '9'
  | _ => '*'

/-- Two-digit zero-padded rendering (`%m`, `%d`, `%H`, `%M`, `%S`). -/
def pad2 (n : Nat) : String :=
  String.mk [digitChar (n / 10 % 10), digitChar (n % 10)]

/-- Four-digit zero-padded rendering (`%Y` for in-range years). -/
def pad4 (n : Nat) : String :=
  String.mk [digitChar (n / 1000 % 10), digitChar (n / 100 % 10),
             digitChar (n / 10 % 10), digitChar (n % 10)]

/-- A UTC instant at second precision, the value captured by
`datetime.now(timezone.utc)` in the handler. -/
structure DateTime where
  year : Nat
  month : Nat
  day : Nat
  hour : Nat
  minute : Nat
  second : Nat
deriving DecidableEq, Repr

/-- `dt.strftime("%Y-%m-%dT%H-%M-%SZ")`: the compact timestamp used both
in every report line and in the object key. -/
def strftime (dt : DateTime) : String :=
  pad4 dt.year ++ "-" ++ pad2 dt.month ++ "-" ++ pad2 dt.day ++ "T" ++
    pad2 dt.hour ++ "-" ++ pad2 dt.minute ++ "-" ++ pad2 dt.second ++ "Z"

/-- The S3 object key `f"logs/ec2_status_{ts}.txt"`. -/
def objectKey (ts : String) : String :=
  "logs/ec2_status_" ++ ts ++ ".txt"

/-- One instance descriptor from a `describe_instances` reservation.
`instanceId` models `inst["InstanceId"]` (a `none` means the key is
missing and the subscript raises `KeyError`); `stateName` models
`inst["State"]["Name"]` the same way. -/
structure InstanceDesc where
  instanceId : Option String
  stateName : Option String
deriving DecidableEq, Repr

/-- One reservation; `instances` is `none` when the `"Instances"` key is
absent (the handler reads it with `r.get("Instances", [])`). -/
structure Reservation where
  instances : Option (List InstanceDesc)
deriving DecidableEq, Repr

/-- The `describe_instances` response; `reservations` is `none` when the
`"Reservations"` key is absent (read with `resp.get("Reservations", [])`). -/
structure DescribeResponse where
  reservations : Option (List Reservation)
deriving DecidableEq, Repr

/-- Errors the Python handler can raise: a `KeyError` for a missing dict
key or environment variable, or an error raised by a boto3 client call. -/
inductive PyError where
  | keyError (key : String)
  | clientError (msg : String)
deriving DecidableEq, Repr

/-- The remote calls the handler can issue, in order.  The body of a put
is the raw byte sequence handed to `s3.put_object`. -/
inductive Event where
  | describeInstances
  | putObject (bucket : String) (key : String) (body : List Nat)
deriving DecidableEq, Repr

/-- The handler's return value `{"count": len(lines)}`. -/
structure HandlerResult where
  count : Nat
deriving DecidableEq, Repr

/-- The trigger event; the handler receives it and never reads it. -/
structure TriggerEvent where
  payload : List (String × String)
deriving DecidableEq, Repr

/-- The Lambda context object; the handler receives it and never reads it. -/
structure LambdaContext where
  functionName : String
  requestId : String
deriving DecidableEq, Repr

/-- UTF-8 encoding of one Unicode code point, as `str.encode("utf-8")`
produces it. -/
def utf8Bytes (c : Char) : List Nat :=
  let n := c.toNat
  if n < 0x80 then [n]
  else if n < 0x800 then [0xC0 + n / 64, 0x80 + n % 64]
  else if n < 0x10000 then [0xE0 + n / 4096, 0x80 + n / 64 % 64, 0x80 + n % 64]
  else [0xF0 + n / 262144, 0x80 + n / 4096 % 64, 0x80 + n / 64 % 64, 0x80 + n % 64]

/-- UTF-8 encoding of a character list. -/
def encList : List Char → List Nat
  | [] => []
  | c :: cs => utf8Bytes c ++ encList cs

/-- `s.encode("utf-8")`. -/
def encodeStr (s : String) : List Nat :=
  encList s.data

/-- `"\n".join(lines)`. -/
def joinLines : List String → String
  | [] => ""
  | [l] => l
  | l :: rest => l ++ "\n" ++ joinLines rest

/-- The report line `f"{ts} - {iid} - {state}"` built inside the loop,
reading the two required keys of one instance descriptor; a missing key
raises `KeyError` exactly as the subscripts in the Python loop body do
(`InstanceId` first, then `State`/`Name`). -/
def formatInstance (ts : String) (inst : InstanceDesc) : Except PyError String :=
  match inst.instanceId with
  | none => .error (.keyError "InstanceId")
  | some iid =>
    match inst.stateName with
    | none => .error (.keyError "State")
    | some st => .ok (ts ++ " - " ++ iid ++ " - " ++ st)

/-- The inner loop `for inst in r.get("Instances", [])`, appending one
line per descriptor and propagating the first `KeyError`. -/
def linesOfInstances (ts : String) : List InstanceDesc → Except PyError (List String)
  | [] => .ok []
  | inst :: rest => do
    let l ← formatInstance ts inst
    let ls ← linesOfInstances ts rest
    pure (l :: ls)

/-- The outer loop `for r in reservations`, concatenating each
reservation's lines in order. -/
def linesOfReservations (ts : String) : List Reservation → Except PyError (List String)
  | [] => .ok []
  | r :: rest => do
    let ls₁ ← linesOfInstances ts (r.instances.getD [])
    let ls₂ ← linesOfReservations ts rest
    pure (ls₁ ++ ls₂)

/-- The flattened instance sequence: all descriptors of all reservations,
reservation order first, then instance order within each reservation. -/
def flattenInstances (rs : List Reservation) : List InstanceDesc :=
  (rs.map (fun r => r.instances.getD [])).flatten

/-- A descriptor carrying both required keys, so that formatting it
succeeds. -/
def hasFields (i : InstanceDesc) : Bool :=
  i.instanceId.isSome && i.stateName.isSome

/-- The report line of a well-formed descriptor. -/
def lineOf (ts : String) (i : InstanceDesc) : String :=
  ts ++ " - " ++ i.instanceId.getD "" ++ " - " ++ i.stateName.getD ""

/-- `lambda_handler(event, context)` with its effects made explicit:
`env` is the value of `LOG_BUCKET` (`none` when unset, in which case the
subscript raises `KeyError`), `ec2Resp` is the outcome of
`ec2.describe_instances()` (an `.error` when the client call raises), and
`now` is the UTC instant captured for the timestamp.  The first component
of the result is the ordered trace of remote calls issued; the second is
the returned value or the propagated exception. -/
def lambda_handler (event : TriggerEvent) (context : LambdaContext)
    (env : Option String) (ec2Resp : Except PyError DescribeResponse)
    (now : DateTime) : List Event × Except PyError HandlerResult :=
  match env with
  | none => ([], .error (.keyError "LOG_BUCKET"))
  | some bucket =>
    match ec2Resp with
    | .error e => ([.describeInstances], .error e)
    | .ok resp =>
      let reservations := resp.reservations.getD []
      let ts := strftime now
      match linesOfReservations ts reservations with
      | .error e => ([.describeInstances], .error e)
      | .ok formatted =>
        let lines := if formatted.isEmpty then [ts ++ " - no instances found"] else formatted
        let body := encodeStr (joinLines lines)
        ([.describeInstances, .putObject bucket (objectKey ts) body],
         .ok ⟨lines.length⟩)

instance {ε α : Type} [DecidableEq ε] [DecidableEq α] : DecidableEq (Except ε α) :=
  fun a b =>
    match a, b with
    | .error e₁, .error e₂ =>
      if h : e₁ = e₂ then .isTrue (by rw [h]) else .isFalse (fun hc => by cases hc; exact h rfl)
    | .error _, .ok _ => .isFalse (fun hc => by cases hc)
    | .ok _, .error _ => .isFalse (fun hc => by cases hc)
    | .ok x, .ok y =>
      if h : x = y then .isTrue (by rw [h]) else .isFalse (fun hc => by cases hc; exact h rfl)

/-- A blob store: a map from (bucket, key) to stored bytes. -/
def Store := String × String → Option (List Nat)

/-- The effect of one traced call on the store: `put_object` overwrites
the object at its key; `describe_instances` reads nothing it owns. -/
def applyEvent (s : Store) : Event → Store
  | .describeInstances => s
  | .putObject b k body => fun p => if p = (b, k) then some body else s p

/-- The effect of a whole trace on the store, in order. -/
def applyEvents (s : Store) (es : List Event) : Store :=
  es.foldl applyEvent s

/-! ### Helper lemmas -/

theorem digitChar_isDigit_or_star (n : Nat) :
    (digitChar n).isDigit = true ∨ digitChar n = '*' := by
  unfold digitChar
  split <;> simp

theorem digitChar_ne_colon (n : Nat) : digitChar n ≠ ':' := by
  rcases digitChar_isDigit_or_star n with h | h
  · intro hc; rw [hc] at h; simp [Char.isDigit] at h
  · intro hc; rw [hc] at h; exact absurd h (by decide)

theorem digitChar_ne_newline (n : Nat) : digitChar n ≠ '\n' := by
  rcases digitChar_isDigit_or_star n with h | h
  · intro hc; rw [hc] at h; simp [Char.isDigit] at h
  · intro hc; rw [hc] at h; exact absurd h (by decide)

theorem data_pad2 (n : Nat) :
    (pad2 n).data = [digitChar (n / 10 % 10), digitChar (n % 10)] := rfl

theorem data_pad4 (n : Nat) :
    (pad4 n).data = [digitChar (n / 1000 % 10), digitChar (n / 100 % 10),
      digitChar (n / 10 % 10), digitChar (n % 10)] := rfl

theorem strftime_data (dt : DateTime) : (strftime dt).data =
    [digitChar (dt.year / 1000 % 10), digitChar (dt.year / 100 % 10),
     digitChar (dt.year / 10 % 10), digitChar (dt.year % 10), '-',
     digitChar (dt.month / 10 % 10), digitChar (dt.month % 10), '-',
     digitChar (dt.day / 10 % 10), digitChar (dt.day % 10), 'T',
     digitChar (dt.hour / 10 % 10), digitChar (dt.hour % 10), '-',
     digitChar (dt.minute / 10 % 10), digitChar (dt.minute % 10), '-',
     digitChar (dt.second / 10 % 10), digitChar (dt.second % 10), 'Z'] := by
  simp [strftime, String.data_append, pad2, pad4]

theorem digitChar_isDigit {n : Nat} (h : n < 10) : (digitChar n).isDigit = true := by
  interval_cases n <;> decide

theorem mem_data_strftime (dt : DateTime) :
    ∀ c ∈ (strftime dt).data,
      c.isDigit = true ∨ c = '-' ∨ c = 'T' ∨ c = 'Z' := by
  intro c hc
  rw [strftime_data] at hc
  simp only [List.mem_cons, List.not_mem_nil, or_false] at hc
  rcases hc with h|h|h|h|h|h|h|h|h|h|h|h|h|h|h|h|h|h|h|h <;>
    first
      | (subst h; exact Or.inl (digitChar_isDigit (Nat.mod_lt _ (by norm_num))))
      | simp [h]

theorem colon_not_mem_strftime (dt : DateTime) : ':' ∉ (strftime dt).data := by
  intro h
  rcases mem_data_strftime dt ':' h with h' | h' | h' | h' <;> simp_all

theorem newline_not_mem_strftime (dt : DateTime) : '\n' ∉ (strftime dt).data := by
  intro h
  rcases mem_data_strftime dt '\n' h with h' | h' | h' | h' <;> simp_all

theorem data_objectKey (ts : String) :
    (objectKey ts).data = "logs/ec2_status_".data ++ ts.data ++ ".txt".data := by
  unfold objectKey
  simp [String.data_append]

theorem colon_not_mem_objectKey (dt : DateTime) :
    ':' ∉ (objectKey (strftime dt)).data := by
  rw [data_objectKey]
  intro h
  rcases List.mem_append.mp h with h | h
  · rcases List.mem_append.mp h with h | h
    · revert h; decide
    · exact colon_not_mem_strftime dt h
  · revert h; decide

@[simp] theorem ok_bind {α β : Type} (a : α) (f : α → Except PyError β) :
    (Except.ok a >>= f : Except PyError β) = f a := rfl

@[simp] theorem error_bind {α β : Type} (e : PyError) (f : α → Except PyError β) :
    (Except.error e >>= f : Except PyError β) = Except.error e := rfl

theorem flattenInstances_nil : flattenInstances [] = [] := rfl

theorem flattenInstances_cons (r : Reservation) (rest : List Reservation) :
    flattenInstances (r :: rest) = r.instances.getD [] ++ flattenInstances rest := by
  simp [flattenInstances]

theorem formatInstance_ok_hasFields (ts : String) (i : InstanceDesc) (s : String)
    (h : formatInstance ts i = .ok s) : hasFields i = true := by
  unfold formatInstance at h
  cases hid : i.instanceId with
  | none => rw [hid] at h; exact absurd h (by simp)
  | some iid =>
    cases hst : i.stateName with
    | none => rw [hid, hst] at h; exact absurd h (by simp)
    | some st => simp [hasFields, hid, hst]

theorem linesOfInstances_ok (ts : String) (l : List InstanceDesc)
    (h : ∀ i ∈ l, hasFields i = true) :
    linesOfInstances ts l = .ok (l.map (lineOf ts)) := by
  induction l with
  | nil => rfl
  | cons i rest ih =>
    have hi := h i (List.mem_cons_self i rest)
    simp only [hasFields, Bool.and_eq_true, Option.isSome_iff_exists] at hi
    obtain ⟨⟨iid, hiid⟩, st, hst⟩ := hi
    have ihr := ih (fun j hj => h j (List.mem_cons_of_mem i hj))
    simp [linesOfInstances, formatInstance, hiid, hst, ihr, lineOf]

theorem linesOfInstances_ok_hasFields (ts : String) (l : List InstanceDesc)
    (ls : List String) (h : linesOfInstances ts l = .ok ls) :
    ∀ i ∈ l, hasFields i = true := by
  induction l generalizing ls with
  | nil => intro i hi; exact absurd hi (List.not_mem_nil i)
  | cons i rest ih =>
    intro j hj
    unfold linesOfInstances at h
    cases hf : formatInstance ts i with
    | error e => rw [hf] at h; exact absurd h (by simp [Except.bind])
    | ok s =>
      rw [hf] at h
      cases hr : linesOfInstances ts rest with
      | error e => rw [hr] at h; exact absurd h (by simp [Except.bind])
      | ok ls' =>
        rcases List.mem_cons.mp hj with hji | hjr
        · subst hji; exact formatInstance_ok_hasFields ts j s hf
        · exact ih ls' hr j hjr

theorem linesOfReservations_ok (ts : String) (rs : List Reservation)
    (h : ∀ i ∈ flattenInstances rs, hasFields i = true) :
    linesOfReservations ts rs = .ok ((flattenInstances rs).map (lineOf ts)) := by
  induction rs with
  | nil => rfl
  | cons r rest ih =>
    have h1 : ∀ i ∈ r.instances.getD [], hasFields i = true := fun i hi =>
      h i (by rw [flattenInstances_cons]; exact List.mem_append_left _ hi)
    have h2 : ∀ i ∈ flattenInstances rest, hasFields i = true := fun i hi =>
      h i (by rw [flattenInstances_cons]; exact List.mem_append_right _ hi)
    simp [linesOfReservations, linesOfInstances_ok ts _ h1, ih h2,
      flattenInstances_cons, List.map_append]

theorem linesOfReservations_ok_hasFields (ts : String) (rs : List Reservation)
    (ls : List String) (h : linesOfReservations ts rs = .ok ls) :
    ∀ i ∈ flattenInstances rs, hasFields i = true := by
  induction rs generalizing ls with
  | nil => intro i hi; rw [flattenInstances_nil] at hi; exact absurd hi (List.not_mem_nil i)
  | cons r rest ih =>
    intro j hj
    unfold linesOfReservations at h
    cases h1 : linesOfInstances ts (r.instances.getD []) with
    | error e => rw [h1] at h; exact absurd h (by simp [Except.bind])
    | ok ls₁ =>
      rw [h1] at h
      cases h2 : linesOfReservations ts rest with
      | error e => rw [h2] at h; exact absurd h (by simp [Except.bind])
      | ok ls₂ =>
        rw [flattenInstances_cons] at hj
        rcases List.mem_append.mp hj with hji | hjr
        · exact linesOfInstances_ok_hasFields ts _ ls₁ h1 j hji
        · exact ih ls₂ h2 j hjr

theorem encList_append (a b : List Char) :
    encList (a ++ b) = encList a ++ encList b := by
  induction a with
  | nil => rfl
  | cons c cs ih => simp [encList, ih]

theorem encodeStr_append (s t : String) :
    encodeStr (s ++ t) = encodeStr s ++ encodeStr t := by
  simp [encodeStr, String.data_append, encList_append]

theorem ten_mem_utf8Bytes (c : Char) (h : 10 ∈ utf8Bytes c) : c = '\n' := by
  unfold utf8Bytes at h
  by_cases h1 : c.toNat < 0x80
  · simp only [h1, if_true, List.mem_singleton] at h
    have hc := Char.ofNat_toNat c
    rw [← h] at hc
    exact hc.symm
  · by_cases h2 : c.toNat < 0x800
    · simp only [h1, h2, if_false, if_true, List.mem_cons, List.not_mem_nil,
        or_false] at h
      exact absurd h (by omega)
    · by_cases h3 : c.toNat < 0x10000
      · simp only [h1, h2, h3, if_false, if_true, List.mem_cons, List.not_mem_nil,
          or_false] at h
        exact absurd h (by omega)
      · simp only [h1, h2, h3, if_false, List.mem_cons, List.not_mem_nil,
          or_false] at h
        exact absurd h (by omega)

theorem count_ten_utf8Bytes (c : Char) :
    (utf8Bytes c).count 10 = if c = '\n' then 1 else 0 := by
  by_cases hc : c = '\n'
  · subst hc; rfl
  · rw [if_neg hc, List.count_eq_zero]
    intro hmem
    exact hc (ten_mem_utf8Bytes c hmem)

theorem count_ten_encList (l : List Char) :
    (encList l).count 10 = l.count '\n' := by
  induction l with
  | nil => rfl
  | cons c cs ih =>
    rw [encList, List.count_append, List.count_cons, count_ten_utf8Bytes, ih]
    by_cases hc : c = '\n' <;> simp [hc, Nat.add_comm]

theorem count_ten_encodeStr (s : String) :
    (encodeStr s).count 10 = s.data.count '\n' := count_ten_encList s.data

theorem count_newline_joinLines (lines : List String)
    (h : ∀ l ∈ lines, '\n' ∉ l.data) (hne : lines ≠ []) :
    (joinLines lines).data.count '\n' = lines.length - 1 := by
  induction lines with
  | nil => exact absurd rfl hne
  | cons l rest ih =>
    cases rest with
    | nil =>
      simp only [joinLines, List.length_singleton, Nat.sub_self]
      exact List.count_eq_zero.mpr (h l (List.mem_singleton_self l))
    | cons l₂ rest₂ =>
      have hrec := ih (fun l' hl' => h l' (List.mem_cons_of_mem l hl'))
        (List.cons_ne_nil l₂ rest₂)
      have hl : l.data.count '\n' = 0 :=
        List.count_eq_zero.mpr (h l (List.mem_cons_self l _))
      show ((l ++ "\n" ++ joinLines (l₂ :: rest₂)).data.count '\n') = _
      rw [String.data_append, String.data_append, List.count_append,
        List.count_append, hl, hrec]
      simp [List.length_cons] <;> omega

/-- The number of newline-separated records in a stored byte body. -/
def recordCount (body : List Nat) : Nat := body.count 10 + 1

theorem recordCount_joinLines (lines : List String)
    (h : ∀ l ∈ lines, '\n' ∉ l.data) (hne : lines ≠ []) :
    recordCount (encodeStr (joinLines lines)) = lines.length := by
  unfold recordCount
  rw [count_ten_encodeStr, count_newline_joinLines lines h hne]
  have : 0 < lines.length := List.length_pos.mpr hne
  omega

theorem lambda_handler_some_ok (ev : TriggerEvent) (ctx : LambdaContext) (b : String)
    (resp : DescribeResponse) (now : DateTime)
    (h : ∀ i ∈ flattenInstances (resp.reservations.getD []), hasFields i = true) :
    lambda_handler ev ctx (some b) (.ok resp) now =
      (let ts := strftime now
       let fl := (flattenInstances (resp.reservations.getD [])).map (lineOf ts)
       let lines := if fl.isEmpty then [ts ++ " - no instances found"] else fl
       ([.describeInstances, .putObject b (objectKey ts) (encodeStr (joinLines lines))],
        .ok ⟨lines.length⟩)) := by
  simp only [lambda_handler, linesOfReservations_ok _ _ h]

theorem newline_not_mem_lineOf (now : DateTime) (i : InstanceDesc)
    (h1 : '\n' ∉ (i.instanceId.getD "").data) (h2 : '\n' ∉ (i.stateName.getD "").data) :
    '\n' ∉ (lineOf (strftime now) i).data := by
  unfold lineOf
  simp only [String.data_append, List.mem_append]
  intro hc
  rcases hc with (((hc | hc) | hc) | hc) | hc
  · exact newline_not_mem_strftime now hc
  · revert hc; decide
  · exact h1 hc
  · revert hc; decide
  · exact h2 hc

theorem newline_not_mem_sentinel (now : DateTime) :
    '\n' ∉ (strftime now ++ " - no instances found").data := by
  simp only [String.data_append, List.mem_append]
  intro hc
  rcases hc with hc | hc
  · exact newline_not_mem_strftime now hc
  · revert hc; decide

/-! ### Sample inputs used by the witnesses -/

/-- A sample trigger event. -/
def sampleEvent : TriggerEvent := ⟨[("source", "aws.events")]⟩

/-- Another sample trigger event, with different contents. -/
def otherEvent : TriggerEvent := ⟨[("source", "manual-test")]⟩

/-- A sample Lambda context. -/
def sampleCtx : LambdaContext := ⟨"ec2-status-logger", "req-1"⟩

/-- A sample captured instant, 2024-03-01T12:00:00 UTC. -/
def sampleNow : DateTime := ⟨2024, 3, 1, 12, 0, 0⟩

/-- A sample response: one reservation holding two instances. -/
def sampleResp : DescribeResponse :=
  ⟨some [⟨some [⟨some "i-001", some "running"⟩, ⟨some "i-002", some "stopped"⟩]⟩]⟩

/-- A sample response with no reservations at all. -/
def emptyResp : DescribeResponse := ⟨some []⟩

/-- A sample response whose single instance descriptor lacks `InstanceId`. -/
def badResp : DescribeResponse := ⟨some [⟨some [⟨none, some "running"⟩]⟩]⟩

/-! ### Claims -/

/-- C1: on a successful run with a nonempty flattened instance sequence of
length N whose descriptors all carry their required keys, the body handed to
the storage write is exactly the newline-join of the N lines
`{timestamp} - {instance_id} - {state}`, one per flattened instance in order,
the returned count is N, and every line starts with the one captured
timestamp (the handler formats all lines from the single `ts` it captured
before the loop, so the timestamp is not recomputed per line). -/
theorem claim1_nonempty_report (ev : TriggerEvent) (ctx : LambdaContext)
    (b : String) (resp : DescribeResponse) (now : DateTime)
    (hne : flattenInstances (resp.reservations.getD []) ≠ [])
    (hwf : ∀ i ∈ flattenInstances (resp.reservations.getD []), hasFields i = true) :
    (lambda_handler ev ctx (some b) (.ok resp) now =
      ([.describeInstances,
        .putObject b (objectKey (strftime now))
          (encodeStr (joinLines
            ((flattenInstances (resp.reservations.getD [])).map
              (lineOf (strftime now)))))],
       .ok ⟨(flattenInstances (resp.reservations.getD [])).length⟩))
    ∧ ∀ l ∈ (flattenInstances (resp.reservations.getD [])).map (lineOf (strftime now)),
        ∃ rest, l = strftime now ++ " - " ++ rest := by
  constructor
  · rw [lambda_handler_some_ok ev ctx b resp now hwf]
    have hfalse : ((flattenInstances (resp.reservations.getD [])).map
        (lineOf (strftime now))).isEmpty = false := by
      cases hfl : flattenInstances (resp.reservations.getD []) with
      | nil => exact absurd hfl hne
      | cons i rest => rfl
    simp [hfalse]
  · intro l hl
    rcases List.mem_map.mp hl with ⟨i, _, rfl⟩
    exact ⟨i.instanceId.getD "" ++ " - " ++ i.stateName.getD "",
      by simp [lineOf, String.append_assoc]⟩

theorem claim1_witness :
    flattenInstances (sampleResp.reservations.getD []) ≠ [] ∧
    (∀ i ∈ flattenInstances (sampleResp.reservations.getD []), hasFields i = true) ∧
    ((lambda_handler sampleEvent sampleCtx (some "log-bucket") (.ok sampleResp) sampleNow =
      ([.describeInstances,
        .putObject "log-bucket" (objectKey (strftime sampleNow))
          (encodeStr (joinLines
            ((flattenInstances (sampleResp.reservations.getD [])).map
              (lineOf (strftime sampleNow)))))],
       .ok ⟨(flattenInstances (sampleResp.reservations.getD [])).length⟩))
    ∧ ∀ l ∈ (flattenInstances (sampleResp.reservations.getD [])).map (lineOf (strftime sampleNow)),
        ∃ rest, l = strftime sampleNow ++ " - " ++ rest) :=
  ⟨by decide, by decide,
    claim1_nonempty_report sampleEvent sampleCtx "log-bucket" sampleResp sampleNow
      (by decide) (by decide)⟩

/-- C2: when the flattened instance sequence is empty the stored body is the
single sentinel line `{timestamp} - no instances found` and the returned
count is 1, so the report is never empty. -/
theorem claim2_empty_inventory_sentinel (ev : TriggerEvent) (ctx : LambdaContext)
    (b : String) (resp : DescribeResponse) (now : DateTime)
    (h : flattenInstances (resp.reservations.getD []) = []) :
    lambda_handler ev ctx (some b) (.ok resp) now =
      ([.describeInstances,
        .putObject b (objectKey (strftime now))
          (encodeStr (strftime now ++ " - no instances found"))],
       .ok ⟨1⟩) := by
  have hwf : ∀ i ∈ flattenInstances (resp.reservations.getD []), hasFields i = true := by
    intro i hi
    rw [h] at hi
    exact absurd hi (List.not_mem_nil i)
  rw [lambda_handler_some_ok ev ctx b resp now hwf]
  simp [h, joinLines]

theorem claim2_witness :
    flattenInstances (emptyResp.reservations.getD []) = [] ∧
    lambda_handler sampleEvent sampleCtx (some "log-bucket") (.ok emptyResp) sampleNow =
      ([.describeInstances,
        .putObject "log-bucket" (objectKey (strftime sampleNow))
          (encodeStr (strftime sampleNow ++ " - no instances found"))],
       .ok ⟨1⟩) :=
  ⟨rfl, claim2_empty_inventory_sentinel sampleEvent sampleCtx "log-bucket" emptyResp
    sampleNow rfl⟩

/-- C3: when `LOG_BUCKET` is unset the subscript on the environment raises a
`KeyError` before anything else happens: the trace of remote calls is empty
(neither `describe_instances` nor `put_object` is invoked), the handler
raises, and no default bucket is substituted. -/
theorem claim3_missing_config_aborts (ev : TriggerEvent) (ctx : LambdaContext)
    (ec2Resp : Except PyError DescribeResponse) (now : DateTime) :
    lambda_handler ev ctx none ec2Resp now = ([], .error (.keyError "LOG_BUCKET")) := rfl

/-- C4: the storage key is the pure function
`logs/ec2_status_{timestamp}.txt` of the captured timestamp; the timestamp
renders as the twenty characters `YYYY-MM-DDTHH-MM-SSZ` (digits separated by
`-`, `T`, `-`, `-`, with a trailing `Z`), and `:` never occurs in the key. -/
theorem claim4_key_shape (now : DateTime) :
    objectKey (strftime now) = "logs/ec2_status_" ++ strftime now ++ ".txt"
    ∧ (strftime now).data =
        [digitChar (now.year / 1000 % 10), digitChar (now.year / 100 % 10),
         digitChar (now.year / 10 % 10), digitChar (now.year % 10), '-',
         digitChar (now.month / 10 % 10), digitChar (now.month % 10), '-',
         digitChar (now.day / 10 % 10), digitChar (now.day % 10), 'T',
         digitChar (now.hour / 10 % 10), digitChar (now.hour % 10), '-',
         digitChar (now.minute / 10 % 10), digitChar (now.minute % 10), '-',
         digitChar (now.second / 10 % 10), digitChar (now.second % 10), 'Z']
    ∧ (∀ c ∈ (strftime now).data, c.isDigit = true ∨ c = '-' ∨ c = 'T' ∨ c = 'Z')
    ∧ ':' ∉ (objectKey (strftime now)).data :=
  ⟨rfl, strftime_data now, mem_data_strftime now, colon_not_mem_objectKey now⟩

/-- C5: a failure of `describe_instances` propagates to the invoker
unchanged with no storage write and no return value (the trace stops at the
inventory call); and every successful invocation issues exactly one storage
write, strictly after the inventory listing, as the trace
`[describeInstances, putObject …]`. -/
theorem claim5_inventory_failure_and_ordering :
    (∀ (ev : TriggerEvent) (ctx : LambdaContext) (b : String) (e : PyError)
        (now : DateTime),
      lambda_handler ev ctx (some b) (.error e) now = ([.describeInstances], .error e))
    ∧ (∀ (ev : TriggerEvent) (ctx : LambdaContext) (b : String)
        (resp : DescribeResponse) (now : DateTime) (res : HandlerResult),
        (lambda_handler ev ctx (some b) (.ok resp) now).2 = .ok res →
        ∃ body, (lambda_handler ev ctx (some b) (.ok resp) now).1 =
          [.describeInstances, .putObject b (objectKey (strftime now)) body]) := by
  constructor
  · intro ev ctx b e now
    rfl
  · intro ev ctx b resp now res h
    simp only [lambda_handler] at h ⊢
    cases hl : linesOfReservations (strftime now) (resp.reservations.getD []) with
    | error e => rw [hl] at h; exact absurd h (by simp)
    | ok fl => exact ⟨_, rfl⟩

theorem claim5_witness :
    ((lambda_handler sampleEvent sampleCtx (some "log-bucket") (.ok sampleResp)
        sampleNow).2 = .ok ⟨2⟩) ∧
    ∃ body, (lambda_handler sampleEvent sampleCtx (some "log-bucket") (.ok sampleResp)
        sampleNow).1 =
      [.describeInstances, .putObject "log-bucket" (objectKey (strftime sampleNow)) body] :=
  ⟨by decide,
    claim5_inventory_failure_and_ordering.2 sampleEvent sampleCtx "log-bucket" sampleResp
      sampleNow ⟨2⟩ (by decide)⟩

/-- C6: formatting flattens the nested reservations-of-instances collection
into one line sequence that is exactly the in-order concatenation of each
reservation's instance lines: reservation order is preserved, and within
each reservation the order of its instances is preserved. -/
theorem claim6_flatten_preserves_order (ts : String) (rs : List Reservation)
    (hwf : ∀ i ∈ flattenInstances rs, hasFields i = true) :
    linesOfReservations ts rs = .ok ((flattenInstances rs).map (lineOf ts))
    ∧ (flattenInstances rs).map (lineOf ts) =
        (rs.map (fun r => (r.instances.getD []).map (lineOf ts))).flatten := by
  refine ⟨linesOfReservations_ok ts rs hwf, ?_⟩
  rw [flattenInstances, List.map_flatten, List.map_map]
  rfl

theorem claim6_witness :
    (∀ i ∈ flattenInstances (sampleResp.reservations.getD []), hasFields i = true) ∧
    (linesOfReservations "t0" (sampleResp.reservations.getD []) =
        .ok ((flattenInstances (sampleResp.reservations.getD [])).map (lineOf "t0"))
    ∧ (flattenInstances (sampleResp.reservations.getD [])).map (lineOf "t0") =
        ((sampleResp.reservations.getD []).map
          (fun r => (r.instances.getD []).map (lineOf "t0"))).flatten) :=
  ⟨by decide,
    claim6_flatten_preserves_order "t0" (sampleResp.reservations.getD []) (by decide)⟩

theorem lambda_handler_trace_cases (ev : TriggerEvent) (ctx : LambdaContext)
    (env : Option String) (r : Except PyError DescribeResponse) (now : DateTime) :
    (lambda_handler ev ctx env r now).1 = [] ∨
    (lambda_handler ev ctx env r now).1 = [Event.describeInstances] ∨
    ∃ b body, (lambda_handler ev ctx env r now).1 =
      [Event.describeInstances, Event.putObject b (objectKey (strftime now)) body] := by
  cases env with
  | none => exact Or.inl rfl
  | some b =>
    cases r with
    | error e => exact Or.inr (Or.inl rfl)
    | ok resp =>
      simp only [lambda_handler]
      cases linesOfReservations (strftime now) (resp.reservations.getD []) with
      | error e => exact Or.inr (Or.inl rfl)
      | ok fl => exact Or.inr (Or.inr ⟨b, _, rfl⟩)

/-- C7: with identical inventory data, configuration and captured second the
handler is deterministic, so any two writes it can issue carry the same key
and byte-identical bodies, and replaying its whole trace against any store a
second time leaves the store exactly as after the first run (idempotent
overwrite). -/
theorem claim7_idempotent_rerun (ev : TriggerEvent) (ctx : LambdaContext)
    (env : Option String) (ec2Resp : Except PyError DescribeResponse)
    (now : DateTime) (s : Store) :
    (applyEvents (applyEvents s (lambda_handler ev ctx env ec2Resp now).1)
        (lambda_handler ev ctx env ec2Resp now).1 =
      applyEvents s (lambda_handler ev ctx env ec2Resp now).1)
    ∧ (∀ b₁ k₁ body₁ b₂ k₂ body₂,
        Event.putObject b₁ k₁ body₁ ∈ (lambda_handler ev ctx env ec2Resp now).1 →
        Event.putObject b₂ k₂ body₂ ∈ (lambda_handler ev ctx env ec2Resp now).1 →
        k₁ = k₂ ∧ body₁ = body₂) := by
  constructor
  · rcases lambda_handler_trace_cases ev ctx env ec2Resp now with h | h | ⟨b, body, h⟩ <;>
      rw [h]
    · rfl
    · rfl
    · funext p
      by_cases hp : p = (b, objectKey (strftime now)) <;>
        simp [applyEvents, applyEvent, hp]
  · intro b₁ k₁ body₁ b₂ k₂ body₂ h₁ h₂
    rcases lambda_handler_trace_cases ev ctx env ec2Resp now with h | h | ⟨b, body, h⟩ <;>
      rw [h] at h₁ h₂ <;> simp at h₁ h₂
    obtain ⟨rfl, rfl, rfl⟩ := h₁
    obtain ⟨rfl, rfl, rfl⟩ := h₂
    exact ⟨rfl, rfl⟩

/-- The byte body stored by the sample run, used by witnesses. -/
def sampleBody : List Nat :=
  encodeStr (joinLines
    ((flattenInstances (sampleResp.reservations.getD [])).map
      (lineOf (strftime sampleNow))))

theorem claim7_witness :
    (Event.putObject "log-bucket" (objectKey (strftime sampleNow)) sampleBody ∈
      (lambda_handler sampleEvent sampleCtx (some "log-bucket") (.ok sampleResp)
        sampleNow).1) ∧
    (objectKey (strftime sampleNow) = objectKey (strftime sampleNow) ∧
      sampleBody = sampleBody) :=
  ⟨by decide,
    (claim7_idempotent_rerun sampleEvent sampleCtx (some "log-bucket") (.ok sampleResp)
        sampleNow (fun _ => none)).2 "log-bucket" (objectKey (strftime sampleNow))
      sampleBody "log-bucket" (objectKey (strftime sampleNow)) sampleBody
      (by decide) (by decide)⟩

/-- C8: on any successful invocation the returned count is the number of
lines actually written: it equals the number of newline-separated records in
the stored byte body (one more than the number of newline bytes in the
UTF-8 payload), includes the sentinel line when no instances exist, and is
therefore at least 1.  The hypothesis that identifiers and state names carry
no newline character reflects their being opaque identifiers. -/
theorem claim8_count_is_record_count (ev : TriggerEvent) (ctx : LambdaContext)
    (b : String) (resp : DescribeResponse) (now : DateTime) (res : HandlerResult)
    (hrun : (lambda_handler ev ctx (some b) (.ok resp) now).2 = .ok res)
    (hclean : ∀ i ∈ flattenInstances (resp.reservations.getD []),
      '\n' ∉ (i.instanceId.getD "").data ∧ '\n' ∉ (i.stateName.getD "").data) :
    1 ≤ res.count ∧
    ∃ body, Event.putObject b (objectKey (strftime now)) body ∈
        (lambda_handler ev ctx (some b) (.ok resp) now).1 ∧
      recordCount body = res.count := by
  cases hl : linesOfReservations (strftime now) (resp.reservations.getD []) with
  | error e =>
    exfalso
    have hbad : (lambda_handler ev ctx (some b) (.ok resp) now).2 = .error e := by
      simp [lambda_handler, hl]
    rw [hrun] at hbad
    exact Except.noConfusion hbad
  | ok fl =>
    have hwf := linesOfReservations_ok_hasFields _ _ _ hl
    have hfl : fl = (flattenInstances (resp.reservations.getD [])).map
        (lineOf (strftime now)) := by
      have h2 := linesOfReservations_ok (strftime now) (resp.reservations.getD []) hwf
      rw [hl] at h2
      exact Except.ok.inj h2
    have heq : lambda_handler ev ctx (some b) (.ok resp) now =
        ([.describeInstances,
          .putObject b (objectKey (strftime now))
            (encodeStr (joinLines
              (if fl.isEmpty then [strftime now ++ " - no instances found"] else fl)))],
         .ok ⟨(if fl.isEmpty then [strftime now ++ " - no instances found"]
            else fl).length⟩) := by
      simp [lambda_handler, hl]
    rw [heq] at hrun ⊢
    have hres : res = ⟨(if fl.isEmpty then [strftime now ++ " - no instances found"]
        else fl).length⟩ := (Except.ok.inj hrun).symm
    subst hres
    cases hemp : fl.isEmpty with
    | true =>
      simp only [hemp, if_true]
      refine ⟨le_refl 1, encodeStr (joinLines [strftime now ++ " - no instances found"]), ?_, ?_⟩
      · simp
      · exact recordCount_joinLines [strftime now ++ " - no instances found"]
          (by intro l hl'
              rw [List.mem_singleton] at hl'
              subst hl'
              exact newline_not_mem_sentinel now)
          (List.cons_ne_nil _ _)
    | false =>
      have hne : fl ≠ [] := by
        intro hnil
        rw [hnil] at hemp
        exact Bool.noConfusion hemp
      simp only [hemp, if_false]
      refine ⟨?_, encodeStr (joinLines fl), ?_, ?_⟩
      · have := List.length_pos.mpr hne
        show 1 ≤ fl.length
        omega
      · simp
      · refine recordCount_joinLines fl ?_ hne
        intro l hl'
        rw [hfl] at hl'
        rcases List.mem_map.mp hl' with ⟨i, hi, rfl⟩
        exact newline_not_mem_lineOf now i (hclean i hi).1 (hclean i hi).2

theorem claim8_witness :
    ((lambda_handler sampleEvent sampleCtx (some "log-bucket") (.ok sampleResp)
        sampleNow).2 = .ok ⟨2⟩) ∧
    (∀ i ∈ flattenInstances (sampleResp.reservations.getD []),
      '\n' ∉ (i.instanceId.getD "").data ∧ '\n' ∉ (i.stateName.getD "").data) ∧
    (1 ≤ (2 : Nat) ∧
      ∃ body, Event.putObject "log-bucket" (objectKey (strftime sampleNow)) body ∈
          (lambda_handler sampleEvent sampleCtx (some "log-bucket") (.ok sampleResp)
            sampleNow).1 ∧
        recordCount body = 2) :=
  ⟨by decide, by decide,
    claim8_count_is_record_count sampleEvent sampleCtx "log-bucket" sampleResp sampleNow
      ⟨2⟩ (by decide) (by decide)⟩

/-- C9: the handler never inspects the trigger event or the context object:
two invocations differing only in those produce identical traces (hence the
same stored key and body) and identical results. -/
theorem claim9_trigger_noninterference (ev₁ ev₂ : TriggerEvent)
    (ctx₁ ctx₂ : LambdaContext) (env : Option String)
    (ec2Resp : Except PyError DescribeResponse) (now : DateTime) :
    lambda_handler ev₁ ctx₁ env ec2Resp now = lambda_handler ev₂ ctx₂ env ec2Resp now := rfl

/-- C10: the handler is total on responses with missing optional keys — a
missing `Reservations` key yields the sentinel report (count 1), and a
reservation without an `Instances` key contributes no lines — while a
descriptor missing `InstanceId` or `State`/`Name` makes the handler raise
after the inventory call and before any storage write (the trace stops at
`describeInstances`). -/
theorem claim10_optional_keys_total :
    (∀ (ev : TriggerEvent) (ctx : LambdaContext) (b : String) (now : DateTime),
      lambda_handler ev ctx (some b) (.ok ⟨none⟩) now =
        ([.describeInstances,
          .putObject b (objectKey (strftime now))
            (encodeStr (strftime now ++ " - no instances found"))],
         .ok ⟨1⟩))
    ∧ (∀ (ts : String) (r : Reservation) (rest : List Reservation),
        r.instances = none →
        linesOfReservations ts (r :: rest) = linesOfReservations ts rest)
    ∧ (∀ (ev : TriggerEvent) (ctx : LambdaContext) (b : String)
        (resp : DescribeResponse) (now : DateTime),
        (∃ i ∈ flattenInstances (resp.reservations.getD []), hasFields i = false) →
        ∃ e, lambda_handler ev ctx (some b) (.ok resp) now =
          ([.describeInstances], .error e)) := by
  refine ⟨fun ev ctx b now => rfl, ?_, ?_⟩
  · intro ts r rest h
    simp only [linesOfReservations, h, Option.getD_none, linesOfInstances, ok_bind]
    cases linesOfReservations ts rest <;> simp
  · intro ev ctx b resp now hbad
    obtain ⟨i, hi, hbadi⟩ := hbad
    cases hl : linesOfReservations (strftime now) (resp.reservations.getD []) with
    | error e => exact ⟨e, by simp [lambda_handler, hl]⟩
    | ok ls =>
      have hwf := linesOfReservations_ok_hasFields _ _ _ hl i hi
      rw [hbadi] at hwf
      exact absurd hwf (by simp)

theorem claim10_witness :
    ((⟨none⟩ : Reservation).instances = none ∧
      linesOfReservations "t0" [⟨none⟩] = linesOfReservations "t0" []) ∧
    ((∃ i ∈ flattenInstances (badResp.reservations.getD []), hasFields i = false) ∧
      ∃ e, lambda_handler sampleEvent sampleCtx (some "log-bucket") (.ok badResp)
          sampleNow = ([.describeInstances], .error e)) :=
  ⟨⟨rfl, claim10_optional_keys_total.2.1 "t0" ⟨none⟩ [] rfl⟩,
   ⟨by decide,
    claim10_optional_keys_total.2.2 sampleEvent sampleCtx "log-bucket" badResp sampleNow
      (by decide)⟩⟩

end Ec2StatusLogger
